import Mathlib

/-!
Verification of the financial recording protocol of the hesab-net back end.

The controllers (saleController, invoiceController, cashRegisterController,
expenseController) and the mongoose schemas (Product, Invoice, CashRegister,
Expense) are embedded as pure functions over an explicit database state.
JavaScript numbers are modelled as rationals; `undefined`-able request fields
are modelled as `Option` with `.getD 0` standing for `x || 0`.  Document
collections are lists; a freshly saved document is prepended, which models
the `sort({date: -1})` "most recent first" access order used by the code
(every cash-register document is stamped with `Date.now` at creation).
`Model.save()` for the CashRegister collection enforces the schema's
`required`/`enum` declarations (`cashRegisterSchema` in the models file);
saves of the other collections are modelled as plain appends/replacements.
Fields that no verified claim mentions (attachments, dueDate, party, dates,
supplier, ...) are omitted from the embedded documents.
-/

deriving instance DecidableEq for Except

namespace HesabNet

/-- Error taxonomy of the request handlers (spec section 7). -/
inductive ApiError where
  | validationFailed
  | notFound
  | insufficientStock
  | insufficientFunds
  | invalidState
  | invalidAmount
deriving DecidableEq

/-- transactionType enum of cashRegisterSchema. -/
inductive TxType where
  | deposit
  | withdrawal
deriving DecidableEq

/-- paymentStatus enum: paid, partial (constructor named part), unpaid. -/
inductive PayStatus where
  | paid
  | part
  | unpaid
deriving DecidableEq

/-- Invoice type enum from invoiceSchema. -/
inductive InvoiceType where
  | sale
  | purchase
deriving DecidableEq

/-- Modelled from the spec: the Sale mongoose model file is absent from the
source tree (only its callers are present).  Per the spec a Sale is created in
the non-cancelled confirmed state, which the controllers spell "completed"
(`cancelSale` tests `sale.status !== 'completed'`); the route documentation
lists completed, cancelled and refunded. -/
inductive SaleStatus where
  | completed
  | cancelled
  | refunded
deriving DecidableEq

/-- status enum from invoiceSchema. -/
inductive InvoiceStatus where
  | draft
  | confirmed
  | cancelled
  | void
deriving DecidableEq

/-- A Product document (productSchema): claim-relevant fields. -/
structure Product where
  id : Nat
  cafeOwner : Nat
  name : String
  price : Rat
  stockQuantity : Rat
deriving DecidableEq

/-- One line of a sale/invoice creation request body. -/
structure ItemReq where
  product : Nat
  quantity : Rat
  discount : Option Rat
deriving DecidableEq

/-- A processed sale line item as stored by createSale. -/
structure SaleItem where
  product : Nat
  quantity : Rat
  unitPrice : Rat
  discount : Rat
  total : Rat
deriving DecidableEq

/-- A processed invoice line item as stored by createInvoice. -/
structure InvoiceItem where
  product : Nat
  productName : String
  quantity : Rat
  unitPrice : Rat
  discount : Rat
  totalPrice : Rat
deriving DecidableEq

/-- Modelled from the spec: the Sale mongoose model file is absent from the
source tree; the document shape follows spec section 3 and the fields
assigned by createSale.  Its save is a plain append (the spec states no
constraint that would reject a stored Sale document). -/
structure Sale where
  id : Nat
  saleNumber : String
  items : List SaleItem
  subtotal : Rat
  tax : Rat
  discount : Rat
  total : Rat
  paymentMethod : String
  paymentStatus : PayStatus
  paidAmount : Rat
  remainingAmount : Rat
  customer : Option String
  notes : Option String
  status : SaleStatus
  cafeOwner : Nat
deriving DecidableEq

/-- An Invoice document (invoiceSchema): claim-relevant fields. -/
structure Invoice where
  id : Nat
  invoiceNumber : String
  type : InvoiceType
  items : List InvoiceItem
  subtotal : Rat
  tax : Rat
  discount : Rat
  total : Rat
  paymentMethod : String
  paymentStatus : PayStatus
  paidAmount : Rat
  remainingAmount : Rat
  status : InvoiceStatus
  notes : Option String
  cafeOwner : Nat
deriving DecidableEq

/-- An Expense document (expenseSchema): claim-relevant fields. -/
structure Expense where
  id : Nat
  description : String
  amount : Rat
  category : String
  paymentMethod : String
  cafeOwner : Nat
deriving DecidableEq

/-- The polymorphic reference subdocument of cashRegisterSchema. -/
structure CashRef where
  type : String
  id : Nat
deriving DecidableEq

/-- A CashRegister document exactly as the controllers construct it: `balance`
is optional at construction time because none of the expense/invoice flows
assigns it (the schema then decides whether the save is accepted). -/
structure CashDoc where
  id : Nat
  transactionType : TxType
  paymentMethod : String
  amount : Rat
  balance : Option Rat
  description : String
  category : String
  reference : Option CashRef
  cafeOwner : Nat
deriving DecidableEq

/-- The database state: one list per collection, newest saved document first,
plus a fresh-identifier counter standing for ObjectId allocation. -/
structure DB where
  products : List Product
  sales : List Sale
  invoices : List Invoice
  expenses : List Expense
  cashRegister : List CashDoc
  nextId : Nat
deriving DecidableEq

/-- paymentMethod enum of cashRegisterSchema. -/
def validPaymentMethod (m : String) : Bool :=
  m = "cash" || m = "card" || m = "transfer"

/-- category enum of cashRegisterSchema. -/
def validCategory (c : String) : Bool :=
  c = "sale" || c = "expense" || c = "refund" || c = "other"

/-- reference.type enum of cashRegisterSchema: sale, expense, other. -/
def validRefType (t : String) : Bool :=
  t = "sale" || t = "expense" || t = "other"

/-- Mongoose validation of cashRegisterSchema: `balance` is a required path,
`amount` has `min: 0`, `description` is required, and the three String enums
must be respected (an enum validator runs only on a value that is set). -/
def cashRegisterSchemaValid (e : CashDoc) : Bool :=
  e.balance.isSome && decide (0 ≤ e.amount) && validPaymentMethod e.paymentMethod
    && validCategory e.category && e.description ≠ ""
    && e.reference.all (fun r => validRefType r.type)

/-- CashRegister.save(): accepted only when the document satisfies the schema,
otherwise the controller's catch block turns the rejection into an error
response. -/
def saveCashRegister (db : DB) (e : CashDoc) : Except ApiError DB :=
  if cashRegisterSchemaValid e then
    .ok { db with cashRegister := e :: db.cashRegister }
  else
    .error .validationFailed

/-- Product.findOne({_id, cafeOwner}). -/
def findProduct (ps : List Product) (pid owner : Nat) : Option Product :=
  ps.find? (fun p => p.id == pid && p.cafeOwner == owner)

/-- Product.findById(id) - used by the cancellation handlers, not owner
scoped. -/
def findProductById (ps : List Product) (pid : Nat) : Option Product :=
  ps.find? (fun p => p.id == pid)

/-- product.save(): replace the document with the same identifier. -/
def saveProduct (ps : List Product) (p : Product) : List Product :=
  ps.map (fun q => if q.id = p.id then p else q)

/-- The payment-status ternary shared by createSale, createInvoice and
updateSale: `remainingAmount <= 0 ? paid : paidAmount > 0 ? partial :
unpaid`. -/
def derivePaymentStatus (remaining paidAmount : Rat) : PayStatus :=
  if remaining ≤ 0 then .paid
  else if 0 < paidAmount then .part
  else .unpaid

/-- The body of createSale's per-item loop: resolve the product in owner
scope (404 when absent), reject a line whose quantity exceeds the stock,
otherwise compute the line total, snapshot the unit price, decrement the
stock and save the product before moving to the next line.  Returns the
request outcome together with the product collection as left behind (on an
error the earlier lines' stock decrements have already been committed). -/
def processSaleItems (owner : Nat) :
    List Product → List ItemReq → Except ApiError (List SaleItem × Rat) × List Product
  | ps, [] => (.ok ([], 0), ps)
  | ps, item :: rest =>
    match findProduct ps item.product owner with
    | none => (.error .notFound, ps)
    | some p =>
      if p.stockQuantity < item.quantity then
        (.error .insufficientStock, ps)
      else
        let itemTotal := item.quantity * p.price * (1 - (item.discount.getD 0) / 100)
        let ps1 := saveProduct ps { p with stockQuantity := p.stockQuantity - item.quantity }
        match processSaleItems owner ps1 rest with
        | (.ok (its, sub), ps2) =>
          (.ok ({ product := p.id, quantity := item.quantity, unitPrice := p.price,
                  discount := item.discount.getD 0, total := itemTotal } :: its,
                itemTotal + sub), ps2)
        | (.error e, ps2) => (.error e, ps2)

/-- The stock movement of an invoice line: down for a sale-type invoice, up
for a purchase-type one. -/
def invoiceStockDelta (itype : InvoiceType) (stock qty : Rat) : Rat :=
  match itype with
  | .sale => stock - qty
  | .purchase => stock + qty

/-- The body of createInvoice's per-item loop: same as the sale loop except
that the stock check only applies to sale-type invoices and the stock moves
down for a sale, up for a purchase. -/
def processInvoiceItems (owner : Nat) (itype : InvoiceType) :
    List Product → List ItemReq → Except ApiError (List InvoiceItem × Rat) × List Product
  | ps, [] => (.ok ([], 0), ps)
  | ps, item :: rest =>
    match findProduct ps item.product owner with
    | none => (.error .notFound, ps)
    | some p =>
      if itype = .sale ∧ p.stockQuantity < item.quantity then
        (.error .insufficientStock, ps)
      else
        let itemTotal := item.quantity * p.price * (1 - (item.discount.getD 0) / 100)
        let ps1 := saveProduct ps
          { p with stockQuantity := invoiceStockDelta itype p.stockQuantity item.quantity }
        match processInvoiceItems owner itype ps1 rest with
        | (.ok (its, sub), ps2) =>
          (.ok ({ product := p.id, productName := p.name, quantity := item.quantity,
                  unitPrice := p.price, discount := item.discount.getD 0,
                  totalPrice := itemTotal } :: its,
                itemTotal + sub), ps2)
        | (.error e, ps2) => (.error e, ps2)

/-- A sale creation request body (after express-validator). -/
structure SaleReq where
  owner : Nat
  items : List ItemReq
  tax : Option Rat
  discount : Option Rat
  paymentMethod : String
  paidAmount : Option Rat
  customer : Option String
  notes : Option String
deriving DecidableEq

/-- createSale of saleController. -/
def createSale (db : DB) (r : SaleReq) : Except ApiError Sale × DB :=
  match processSaleItems r.owner db.products r.items with
  | (.error e, ps) => (.error e, { db with products := ps })
  | (.ok (items, subtotal), ps) =>
    let total := subtotal * (1 - (r.discount.getD 0) / 100) + r.tax.getD 0
    let remainingAmount := total - r.paidAmount.getD 0
    let paymentStatus := derivePaymentStatus remainingAmount (r.paidAmount.getD 0)
    let sale : Sale :=
      { id := db.nextId, saleNumber := "SALE", items := items, subtotal := subtotal,
        tax := r.tax.getD 0, discount := r.discount.getD 0, total := total,
        paymentMethod := r.paymentMethod, paymentStatus := paymentStatus,
        paidAmount := r.paidAmount.getD 0, remainingAmount := remainingAmount,
        customer := r.customer, notes := r.notes, status := .completed,
        cafeOwner := r.owner }
    (.ok sale, { db with products := ps, sales := sale :: db.sales, nextId := db.nextId + 1 })

/-- Sale.findOne({_id, cafeOwner}). -/
def findSale (ss : List Sale) (sid owner : Nat) : Option Sale :=
  ss.find? (fun s => s.id == sid && s.cafeOwner == owner)

/-- sale.save() on an existing document: replace by identifier. -/
def saveSale (ss : List Sale) (s : Sale) : List Sale :=
  ss.map (fun x => if x.id = s.id then s else x)

/-- Invoice.findOne({_id, cafeOwner}). -/
def findInvoice (is : List Invoice) (iid owner : Nat) : Option Invoice :=
  is.find? (fun i => i.id == iid && i.cafeOwner == owner)

/-- invoice.save() on an existing document: replace by identifier. -/
def saveInvoice (is : List Invoice) (i : Invoice) : List Invoice :=
  is.map (fun x => if x.id = i.id then i else x)

/-- A sale update request body: only paidAmount and notes are read. -/
structure UpdateSaleReq where
  owner : Nat
  saleId : Nat
  paidAmount : Option Rat
  notes : Option String
deriving DecidableEq

/-- updateSale of saleController: when paidAmount is present it is applied
unconditionally, remainingAmount and paymentStatus are recomputed, notes is
overwritten when present, and nothing else is touched. -/
def updateSale (db : DB) (r : UpdateSaleReq) : Except ApiError Sale × DB :=
  match findSale db.sales r.saleId r.owner with
  | none => (.error .notFound, db)
  | some sale =>
    let sale1 :=
      match r.paidAmount with
      | some pa =>
        { sale with paidAmount := pa, remainingAmount := sale.total - pa,
                    paymentStatus := derivePaymentStatus (sale.total - pa) pa }
      | none => sale
    let sale2 :=
      match r.notes with
      | some n => { sale1 with notes := some n }
      | none => sale1
    (.ok sale2, { db with sales := saveSale db.sales sale2 })

/-- The stock-restoration loop of cancelSale: each product found by plain
findById gets its quantity added back; a missing product is skipped. -/
def restoreSaleStock : List Product → List SaleItem → List Product
  | ps, [] => ps
  | ps, it :: rest =>
    match findProductById ps it.product with
    | some p =>
      restoreSaleStock (saveProduct ps { p with stockQuantity := p.stockQuantity + it.quantity }) rest
    | none => restoreSaleStock ps rest

/-- cancelSale of saleController: only a completed sale can be cancelled;
stock is restored and the status flips to cancelled, keeping the record. -/
def cancelSale (db : DB) (owner sid : Nat) : Except ApiError Sale × DB :=
  match findSale db.sales sid owner with
  | none => (.error .notFound, db)
  | some sale =>
    if sale.status ≠ .completed then
      (.error .invalidState, db)
    else
      let ps := restoreSaleStock db.products sale.items
      let sale1 := { sale with status := SaleStatus.cancelled }
      (.ok sale1, { db with products := ps, sales := saveSale db.sales sale1 })

/-- The stock-restoration loop of cancelInvoice: quantity is added back for a
sale-type invoice and subtracted for a purchase-type one. -/
def restoreInvoiceStock (itype : InvoiceType) : List Product → List InvoiceItem → List Product
  | ps, [] => ps
  | ps, it :: rest =>
    match findProductById ps it.product with
    | some p =>
      let newStock :=
        match itype with
        | .sale => p.stockQuantity + it.quantity
        | .purchase => p.stockQuantity - it.quantity
      restoreInvoiceStock itype (saveProduct ps { p with stockQuantity := newStock }) rest
    | none => restoreInvoiceStock itype ps rest

/-- cancelInvoice of invoiceController. -/
def cancelInvoice (db : DB) (owner iid : Nat) : Except ApiError Invoice × DB :=
  match findInvoice db.invoices iid owner with
  | none => (.error .notFound, db)
  | some inv =>
    if inv.status ≠ .confirmed then
      (.error .invalidState, db)
    else
      let ps := restoreInvoiceStock inv.type db.products inv.items
      let inv1 := { inv with status := InvoiceStatus.cancelled }
      (.ok inv1, { db with products := ps, invoices := saveInvoice db.invoices inv1 })

/-- An invoice creation request body (after express-validator). -/
structure InvoiceReq where
  owner : Nat
  type : InvoiceType
  items : List ItemReq
  tax : Option Rat
  discount : Option Rat
  paymentMethod : String
  paidAmount : Option Rat
  notes : Option String
deriving DecidableEq

/-- The CashRegister document constructed by createInvoice when paidAmount
is positive.  The code assigns no balance, and tags the reference with the
string type invoice. -/
def invoiceCashDoc (r : InvoiceReq) (invoiceId entryId : Nat) : CashDoc :=
  { id := entryId,
    transactionType := if r.type = .sale then .deposit else .withdrawal,
    paymentMethod := r.paymentMethod,
    amount := r.paidAmount.getD 0,
    balance := none,
    description := "Payment for invoice",
    category := if r.type = .sale then "sale" else "expense",
    reference := some { type := "invoice", id := invoiceId },
    cafeOwner := r.owner }

/-- createInvoice of invoiceController: processes the items, persists the
invoice, then attempts to mirror a positive paidAmount into the cash
register; a rejected mirror save is caught and surfaces as an error response
with the invoice (and the stock changes) already persisted. -/
def createInvoice (db : DB) (r : InvoiceReq) : Except ApiError Invoice × DB :=
  match processInvoiceItems r.owner r.type db.products r.items with
  | (.error e, ps) => (.error e, { db with products := ps })
  | (.ok (items, subtotal), ps) =>
    let total := subtotal * (1 - (r.discount.getD 0) / 100) + r.tax.getD 0
    let remainingAmount := total - r.paidAmount.getD 0
    let paymentStatus := derivePaymentStatus remainingAmount (r.paidAmount.getD 0)
    let inv : Invoice :=
      { id := db.nextId, invoiceNumber := "INV", type := r.type, items := items,
        subtotal := subtotal, tax := r.tax.getD 0, discount := r.discount.getD 0,
        total := total, paymentMethod := r.paymentMethod, paymentStatus := paymentStatus,
        paidAmount := r.paidAmount.getD 0, remainingAmount := remainingAmount,
        status := .confirmed, notes := r.notes, cafeOwner := r.owner }
    let db1 := { db with products := ps, invoices := inv :: db.invoices, nextId := db.nextId + 1 }
    if 0 < r.paidAmount.getD 0 then
      let entry := invoiceCashDoc r inv.id db1.nextId
      let db2 := { db1 with nextId := db1.nextId + 1 }
      match saveCashRegister db2 entry with
      | .ok db3 => (.ok inv, db3)
      | .error e => (.error e, db2)
    else
      (.ok inv, db1)

/-- An invoice payment update request body. -/
structure PayReq where
  owner : Nat
  invoiceId : Nat
  paidAmount : Rat
  paymentMethod : String
deriving DecidableEq

/-- The CashRegister document constructed by updateInvoicePayment for the
additional payment: again no balance, reference type invoice. -/
def paymentCashDoc (inv : Invoice) (amount : Rat) (pm : String) (entryId owner : Nat) : CashDoc :=
  { id := entryId,
    transactionType := if inv.type = .sale then .deposit else .withdrawal,
    paymentMethod := pm,
    amount := amount,
    balance := none,
    description := "Additional payment for invoice",
    category := if inv.type = .sale then "sale" else "expense",
    reference := some { type := "invoice", id := inv.id },
    cafeOwner := owner }

/-- updateInvoicePayment of invoiceController: only for a confirmed invoice,
only for a strictly positive delta; the invoice is updated and saved, then
the delta is mirrored into the cash register (with the truncated two-way
status ternary: paid when nothing remains, otherwise partial). -/
def updateInvoicePayment (db : DB) (r : PayReq) : Except ApiError Invoice × DB :=
  match findInvoice db.invoices r.invoiceId r.owner with
  | none => (.error .notFound, db)
  | some inv =>
    if inv.status ≠ .confirmed then
      (.error .invalidState, db)
    else
      let additionalPayment := r.paidAmount - inv.paidAmount
      if additionalPayment ≤ 0 then
        (.error .invalidAmount, db)
      else
        let inv1 :=
          { inv with paidAmount := r.paidAmount,
                     remainingAmount := inv.total - r.paidAmount,
                     paymentStatus :=
                       if inv.total - r.paidAmount ≤ 0 then PayStatus.paid else PayStatus.part,
                     paymentMethod := r.paymentMethod }
        let db1 := { db with invoices := saveInvoice db.invoices inv1 }
        let entry := paymentCashDoc inv1 additionalPayment r.paymentMethod db1.nextId r.owner
        let db2 := { db1 with nextId := db1.nextId + 1 }
        match saveCashRegister db2 entry with
        | .ok db3 => (.ok inv1, db3)
        | .error e => (.error e, db2)

/-- CashRegister.findOne({cafeOwner}).sort({date: -1}): the most recent entry
for the owner, i.e. the first one in the newest-first list. -/
def latestCashEntry (db : DB) (owner : Nat) : Option CashDoc :=
  db.cashRegister.find? (fun e => e.cafeOwner == owner)

/-- The running balance read by createTransaction: the last entry's balance,
defaulting to 0 when no prior entry exists. -/
def currentBalance (db : DB) (owner : Nat) : Rat :=
  match latestCashEntry db owner with
  | some e => e.balance.getD 0
  | none => 0

/-- A direct cash-register transaction request body (after
express-validator). -/
structure TxReq where
  owner : Nat
  transactionType : TxType
  paymentMethod : String
  amount : Rat
  description : String
  category : String
  reference : Option CashRef
deriving DecidableEq

/-- createTransaction of cashRegisterController: computes the new running
balance from the latest prior entry, rejects a withdrawal that would drive
it negative, and stores the entry with the computed balance. -/
def createTransaction (db : DB) (r : TxReq) : Except ApiError CashDoc × DB :=
  let bal := currentBalance db r.owner
  let newBalance :=
    match r.transactionType with
    | .deposit => bal + r.amount
    | .withdrawal => bal - r.amount
  if r.transactionType = .withdrawal ∧ newBalance < 0 then
    (.error .insufficientFunds, db)
  else
    let doc : CashDoc :=
      { id := db.nextId, transactionType := r.transactionType,
        paymentMethod := r.paymentMethod, amount := r.amount,
        balance := some newBalance, description := r.description,
        category := r.category, reference := r.reference, cafeOwner := r.owner }
    let db1 := { db with nextId := db.nextId + 1 }
    match saveCashRegister db1 doc with
    | .ok db2 => (.ok doc, db2)
    | .error e => (.error e, db1)

/-- An expense creation request body (after express-validator). -/
structure ExpenseReq where
  owner : Nat
  description : String
  amount : Rat
  category : String
  paymentMethod : String
deriving DecidableEq

/-- The CashRegister document constructed by createExpense: a withdrawal of
the expense amount referencing the expense - and no balance assignment. -/
def expenseCashDoc (r : ExpenseReq) (expenseId entryId : Nat) : CashDoc :=
  { id := entryId,
    transactionType := .withdrawal,
    paymentMethod := r.paymentMethod,
    amount := r.amount,
    balance := none,
    description := "Expense: " ++ r.description,
    category := "expense",
    reference := some { type := "expense", id := expenseId },
    cafeOwner := r.owner }

/-- createExpense of expenseController: saves the expense, then attempts to
mirror it into the cash register; a rejected mirror save is caught and
surfaces as an error response with the expense already persisted. -/
def createExpense (db : DB) (r : ExpenseReq) : Except ApiError Expense × DB :=
  let expense : Expense :=
    { id := db.nextId, description := r.description, amount := r.amount,
      category := r.category, paymentMethod := r.paymentMethod, cafeOwner := r.owner }
  let db1 := { db with expenses := expense :: db.expenses, nextId := db.nextId + 1 }
  let entry := expenseCashDoc r expense.id db1.nextId
  let db2 := { db1 with nextId := db1.nextId + 1 }
  match saveCashRegister db2 entry with
  | .ok db3 => (.ok expense, db3)
  | .error e => (.error e, db2)

/-- The reference filter used by deleteExpense on the cash register. -/
def refMatchesExpense (eid : Nat) (e : CashDoc) : Bool :=
  match e.reference with
  | some rf => rf.type == "expense" && rf.id == eid
  | none => false

/-- deleteExpense of expenseController: deletes the expense, then deletes one
cash-register entry whose reference points at it. -/
def deleteExpense (db : DB) (owner eid : Nat) : Except ApiError Unit × DB :=
  match db.expenses.find? (fun x => x.id == eid && x.cafeOwner == owner) with
  | none => (.error .notFound, db)
  | some expense =>
    let db1 := { db with expenses := db.expenses.eraseP (fun x => x.id == expense.id) }
    let db2 := { db1 with cashRegister := db1.cashRegister.eraseP (refMatchesExpense expense.id) }
    (.ok (), db2)

/-! ## Concrete fixtures used by the per-claim evaluation theorems -/

/-- A seed cash-register entry giving owner 7 a running balance of 100. -/
def priorEntryC1 : CashDoc :=
  { id := 1, transactionType := .deposit, paymentMethod := "cash", amount := 100,
    balance := some 100, description := "seed", category := "other",
    reference := none, cafeOwner := 7 }

def dbC1 : DB :=
  { products := [], sales := [], invoices := [], expenses := [],
    cashRegister := [priorEntryC1], nextId := 2 }

def txC1 : TxReq :=
  { owner := 7, transactionType := .deposit, paymentMethod := "cash", amount := 50,
    description := "manual deposit", category := "other", reference := none }

def expReqC1 : ExpenseReq :=
  { owner := 7, description := "supplies run", amount := 50, category := "supplies",
    paymentMethod := "cash" }

def dbC2 : DB :=
  { products := [{ id := 1, cafeOwner := 7, name := "P1", price := 10, stockQuantity := 5 }],
    sales := [], invoices := [], expenses := [], cashRegister := [], nextId := 2 }

def invReqC2 : InvoiceReq :=
  { owner := 7, type := .sale, items := [{ product := 1, quantity := 1, discount := none }],
    tax := none, discount := none, paymentMethod := "cash", paidAmount := some 10,
    notes := none }

def saleReqC2 : SaleReq :=
  { owner := 7, items := [{ product := 1, quantity := 1, discount := none }],
    tax := none, discount := none, paymentMethod := "cash", paidAmount := some 10,
    customer := none, notes := none }

def dbC3 : DB :=
  { products := [], sales := [], invoices := [], expenses := [], cashRegister := [],
    nextId := 0 }

def expReqC3 : ExpenseReq :=
  { owner := 7, description := "rent", amount := 50, category := "rent",
    paymentMethod := "cash" }

/-- A confirmed sale-type invoice with total 30 of which 10 is paid. -/
def invC4 : Invoice :=
  { id := 1, invoiceNumber := "INV", type := .sale, items := [], subtotal := 30,
    tax := 0, discount := 0, total := 30, paymentMethod := "cash",
    paymentStatus := .part, paidAmount := 10, remainingAmount := 20,
    status := .confirmed, notes := none, cafeOwner := 7 }

def dbC4 : DB :=
  { products := [], sales := [], invoices := [invC4, { invC4 with id := 2, status := .cancelled }],
    expenses := [], cashRegister := [], nextId := 3 }

def payC4 : PayReq :=
  { owner := 7, invoiceId := 1, paidAmount := 25, paymentMethod := "cash" }

/-- The invoice document as updateInvoicePayment rewrites invC4 for the
section-8 scenario. -/
def invC4after : Invoice :=
  { invC4 with paidAmount := 25, remainingAmount := 5, paymentStatus := .part }

def invReqC2zero : InvoiceReq :=
  { owner := 7, type := .sale, items := [{ product := 1, quantity := 1, discount := none }],
    tax := none, discount := none, paymentMethod := "cash", paidAmount := none,
    notes := none }

def dbC6 : DB :=
  { products := [{ id := 1, cafeOwner := 7, name := "P1", price := 10, stockQuantity := 5 }],
    sales := [], invoices := [], expenses := [], cashRegister := [], nextId := 2 }

def saleReqC6 : SaleReq :=
  { owner := 7, items := [{ product := 1, quantity := 2, discount := none }],
    tax := none, discount := none, paymentMethod := "cash", paidAmount := some 20,
    customer := none, notes := none }

/-- The sale document produced by createSale on dbC6/saleReqC6. -/
def saleC6 : Sale :=
  { id := 2, saleNumber := "SALE",
    items := [{ product := 1, quantity := 2, unitPrice := 10, discount := 0, total := 20 }],
    subtotal := 20, tax := 0, discount := 0, total := 20, paymentMethod := "cash",
    paymentStatus := .paid, paidAmount := 20, remainingAmount := 0,
    customer := none, notes := none, status := .completed, cafeOwner := 7 }

def invReqC6 : InvoiceReq :=
  { owner := 7, type := .purchase, items := [{ product := 1, quantity := 3, discount := none }],
    tax := none, discount := none, paymentMethod := "cash", paidAmount := none,
    notes := none }

/-- The invoice document produced by createInvoice on dbC6/invReqC6. -/
def invC6 : Invoice :=
  { id := 2, invoiceNumber := "INV", type := .purchase,
    items := [{ product := 1, productName := "P1", quantity := 3, unitPrice := 10,
                discount := 0, totalPrice := 30 }],
    subtotal := 30, tax := 0, discount := 0, total := 30, paymentMethod := "cash",
    paymentStatus := .unpaid, paidAmount := 0, remainingAmount := 30,
    status := .confirmed, notes := none, cafeOwner := 7 }

/-- Counterexample fixture for C7: the first line references an absent
product while the second line references an existing product with
insufficient stock. -/
def dbC7 : DB :=
  { products := [{ id := 1, cafeOwner := 7, name := "P1", price := 10, stockQuantity := 0 }],
    sales := [], invoices := [], expenses := [], cashRegister := [], nextId := 2 }

def saleReqC7 : SaleReq :=
  { owner := 7,
    items := [{ product := 99, quantity := 1, discount := none },
              { product := 1, quantity := 1, discount := none }],
    tax := none, discount := none, paymentMethod := "cash", paidAmount := none,
    customer := none, notes := none }

def saleReqC7single : SaleReq :=
  { owner := 7, items := [{ product := 1, quantity := 1, discount := none }],
    tax := none, discount := none, paymentMethod := "cash", paidAmount := none,
    customer := none, notes := none }

/-- Cancellation fixture: a completed sale and a confirmed purchase invoice
over the same product. -/
def saleC8 : Sale :=
  { id := 1, saleNumber := "SALE",
    items := [{ product := 1, quantity := 2, unitPrice := 10, discount := 0, total := 20 }],
    subtotal := 20, tax := 0, discount := 0, total := 20, paymentMethod := "cash",
    paymentStatus := .paid, paidAmount := 20, remainingAmount := 0,
    customer := none, notes := none, status := .completed, cafeOwner := 7 }

def invC8 : Invoice :=
  { id := 1, invoiceNumber := "INV", type := .purchase,
    items := [{ product := 1, productName := "P1", quantity := 2, unitPrice := 10,
                discount := 0, totalPrice := 20 }],
    subtotal := 20, tax := 0, discount := 0, total := 20, paymentMethod := "cash",
    paymentStatus := .paid, paidAmount := 20, remainingAmount := 0,
    status := .confirmed, notes := none, cafeOwner := 7 }

def dbC8 : DB :=
  { products := [{ id := 1, cafeOwner := 7, name := "P1", price := 10, stockQuantity := 3 }],
    sales := [saleC8], invoices := [invC8], expenses := [], cashRegister := [], nextId := 5 }

def dbC9 : DB :=
  { products := [], sales := [], invoices := [], expenses := [], cashRegister := [],
    nextId := 0 }

def txC9 : TxReq :=
  { owner := 7, transactionType := .withdrawal, paymentMethod := "cash", amount := 50,
    description := "manual withdrawal", category := "other", reference := none }

def expReqC9 : ExpenseReq :=
  { owner := 7, description := "supplies", amount := 50, category := "supplies",
    paymentMethod := "cash" }

/-- Frame fixture: a completed sale with total 30, of which 20 is paid. -/
def saleC10 : Sale :=
  { id := 1, saleNumber := "SALE",
    items := [{ product := 1, quantity := 3, unitPrice := 10, discount := 0, total := 30 }],
    subtotal := 30, tax := 0, discount := 0, total := 30, paymentMethod := "cash",
    paymentStatus := .part, paidAmount := 20, remainingAmount := 10,
    customer := some "c", notes := some "old", status := .completed, cafeOwner := 7 }

def dbC10 : DB :=
  { products := [], sales := [saleC10], invoices := [], expenses := [], cashRegister := [],
    nextId := 2 }

def updReqC10 : UpdateSaleReq :=
  { owner := 7, saleId := 1, paidAmount := some 50, notes := none }

/-! ## Helper lemmas about document lookup and replacement -/

/-- find? commutes with a map that preserves the predicate on every element
of the list. -/
lemma find?_map_pred {α : Type} (f : α → α) (p : α → Bool) :
    ∀ l : List α, (∀ a ∈ l, p (f a) = p a) → (l.map f).find? p = (l.find? p).map f := by
  intro l
  induction l with
  | nil => simp
  | cons a t ih =>
    intro h
    simp only [List.map_cons, List.find?]
    rw [h a (by simp)]
    cases hp : p a with
    | true => simp
    | false => simpa using ih (fun b hb => h b (by simp [hb]))

/-- Two lists with the same image under a key function have find? results
with the same key, for any predicate that only depends on the key. -/
lemma find?_map_congr {α β : Type} (f : α → β) (p : α → Bool) (q : β → Bool)
    (hpq : ∀ a, p a = q (f a)) :
    ∀ l₁ l₂ : List α, l₁.map f = l₂.map f →
      (l₁.find? p).map f = (l₂.find? p).map f := by
  intro l₁
  induction l₁ with
  | nil =>
    intro l₂ h
    cases l₂ with
    | nil => rfl
    | cons b u => simp at h
  | cons a t ih =>
    intro l₂ h
    cases l₂ with
    | nil => simp at h
    | cons b u =>
      simp only [List.map_cons, List.cons.injEq] at h
      obtain ⟨hab, htu⟩ := h
      simp only [List.find?]
      have hpab : p a = p b := by rw [hpq a, hpq b, hab]
      rw [← hpab]
      cases hp : p a with
      | true => simp [hab]
      | false => simpa using ih u htu

/-- Evaluation form of find? used to run the embedded queries on concrete
collections. -/
lemma find?_cons_eval {α : Type} (p : α → Bool) (a : α) (l : List α) :
    (a :: l).find? p = if p a then some a else l.find? p := by
  cases h : p a <;> simp [List.find?, h]

/-- Evaluation form of eraseP used to run deleteExpense on concrete
collections. -/
lemma eraseP_cons_eval {α : Type} (p : α → Bool) (a : α) (l : List α) :
    (a :: l).eraseP p = if p a then l else a :: l.eraseP p := by
  cases h : p a <;> simp [List.eraseP_cons, h]

/-- The identifier / owner / price key of a product, invariant under the
stock mutations of the item-processing loops. -/
def prodKey (p : Product) : Nat × Nat × Rat := (p.id, p.cafeOwner, p.price)

lemma saveProduct_map_id (ps : List Product) (p : Product) :
    (saveProduct ps p).map Product.id = ps.map Product.id := by
  simp only [saveProduct, List.map_map]
  refine List.map_congr_left (fun q _ => ?_)
  by_cases h : q.id = p.id <;> simp [Function.comp, h]

lemma findProduct_id_owner {ps : List Product} {pid owner : Nat} {p : Product}
    (h : findProduct ps pid owner = some p) : p.id = pid ∧ p.cafeOwner = owner := by
  have := List.find?_some h
  simpa [Bool.and_eq_true, beq_iff_eq] using this

lemma findProduct_mem {ps : List Product} {pid owner : Nat} {p : Product}
    (h : findProduct ps pid owner = some p) : p ∈ ps :=
  List.mem_of_find?_eq_some h

/-- Replacing the found product by a stock-modified copy commutes with any
further owner-scoped lookup, provided product identifiers are unique. -/
lemma findProduct_saveProduct {ps : List Product} {pid owner : Nat} {p : Product}
    (hnd : (ps.map Product.id).Nodup)
    (hfind : findProduct ps pid owner = some p) (s : Rat) (qid qo : Nat) :
    findProduct (saveProduct ps { p with stockQuantity := s }) qid qo =
      (findProduct ps qid qo).map
        (fun q => if q.id = p.id then { p with stockQuantity := s } else q) := by
  apply find?_map_pred
  intro a ha
  by_cases h : a.id = p.id
  · have hap : a = p :=
      List.inj_on_of_nodup_map hnd ha (findProduct_mem hfind) h
    subst hap
    simp [h]
  · simp [h]

lemma saveProduct_map_key {ps : List Product} {pid owner : Nat} {p : Product}
    (hnd : (ps.map Product.id).Nodup)
    (hfind : findProduct ps pid owner = some p) (s : Rat) :
    (saveProduct ps { p with stockQuantity := s }).map prodKey = ps.map prodKey := by
  simp only [saveProduct, List.map_map]
  refine List.map_congr_left (fun q hq => ?_)
  by_cases h : q.id = p.id
  · have hqp : q = p :=
      List.inj_on_of_nodup_map hnd hq (findProduct_mem hfind) h
    subst hqp
    simp [h, prodKey, Function.comp]
  · simp [h, Function.comp]

/-- Owner-scoped lookups on two product lists with the same key image find
documents with the same identifier, owner and price. -/
lemma findProduct_key_congr (ps₁ ps₂ : List Product) (pid owner : Nat)
    (h : ps₁.map prodKey = ps₂.map prodKey) :
    (findProduct ps₁ pid owner).map prodKey = (findProduct ps₂ pid owner).map prodKey := by
  refine find?_map_congr prodKey _ (fun k => k.1 == pid && k.2.1 == owner) ?_ ps₁ ps₂ h
  intro a
  rfl

/-- Unconditioned analogue for the id-only lookup used by cancellation: the
replacement always carries the same identifier as what it replaces. -/
lemma findProductById_saveProduct (ps : List Product) (p' : Product) (qid : Nat) :
    findProductById (saveProduct ps p') qid =
      (findProductById ps qid).map (fun q => if q.id = p'.id then p' else q) := by
  apply find?_map_pred
  intro a _
  by_cases h : a.id = p'.id
  · simp [h]
  · simp [h]

lemma findProductById_id {ps : List Product} {pid : Nat} {p : Product}
    (h : findProductById ps pid = some p) : p.id = pid := by
  have := List.find?_some h
  simpa [beq_iff_eq] using this

/-! ## Invariants of the item-processing loops -/

/-- The sale item loop never changes a product's identifier, owner or
price - it only moves stock. -/
lemma processSaleItems_key (owner : Nat) :
    ∀ (items : List ItemReq) (ps : List Product),
      (ps.map Product.id).Nodup →
      (processSaleItems owner ps items).2.map prodKey = ps.map prodKey := by
  intro items
  induction items with
  | nil => intro ps _; rfl
  | cons item rest ih =>
    intro ps hnd
    simp only [processSaleItems]
    cases hf : findProduct ps item.product owner with
    | none => simp
    | some p =>
      simp only
      by_cases hst : p.stockQuantity < item.quantity
      · simp [hst]
      · simp only [hst, if_false]
        have hkey : (saveProduct ps { p with stockQuantity := p.stockQuantity - item.quantity
            }).map prodKey = ps.map prodKey := saveProduct_map_key hnd hf _
        have hid : (saveProduct ps { p with stockQuantity := p.stockQuantity - item.quantity
            }).map Product.id = ps.map Product.id := saveProduct_map_id ps _
        have hnd1 : ((saveProduct ps { p with stockQuantity := p.stockQuantity - item.quantity
            }).map Product.id).Nodup := by rw [hid]; exact hnd
        have ihh := ih _ hnd1
        rcases hrec : processSaleItems owner
            (saveProduct ps { p with stockQuantity := p.stockQuantity - item.quantity }) rest
            with ⟨res, ps2⟩
        rw [hrec] at ihh
        cases res with
        | ok v =>
          rcases v with ⟨its, sub⟩
          simpa [hrec] using ihh.trans hkey
        | error e => simpa [hrec] using ihh.trans hkey

lemma processSaleItems_map_id (owner : Nat) (items : List ItemReq) (ps : List Product)
    (hnd : (ps.map Product.id).Nodup) :
    (processSaleItems owner ps items).2.map Product.id = ps.map Product.id := by
  have h := processSaleItems_key owner items ps hnd
  have h1 := congrArg (List.map Prod.fst) h
  simpa [List.map_map, prodKey, Function.comp] using h1

/-- What a successful run of the sale item loop guarantees: the subtotal is
the sum of the produced line totals, lines correspond one-to-one to the
request, each line total follows the discount formula, and each unit price
is a snapshot of the price of the product resolved in owner scope against
the initial product collection. -/
lemma processSaleItems_ok_spec (owner : Nat) :
    ∀ (items : List ItemReq) (ps : List Product) (its : List SaleItem) (sub : Rat)
      (ps2 : List Product),
      (ps.map Product.id).Nodup →
      processSaleItems owner ps items = (.ok (its, sub), ps2) →
      sub = (its.map SaleItem.total).sum ∧
      its.length = items.length ∧
      ∀ pr ∈ its.zip items,
        pr.1.quantity = pr.2.quantity ∧
        pr.1.discount = pr.2.discount.getD 0 ∧
        pr.1.total = pr.1.quantity * pr.1.unitPrice * (1 - pr.1.discount / 100) ∧
        ∃ p, findProduct ps pr.2.product owner = some p ∧
          pr.1.unitPrice = p.price ∧ pr.1.product = p.id := by
  intro items
  induction items with
  | nil =>
    intro ps its sub ps2 _ h
    simp only [processSaleItems, Prod.mk.injEq, Except.ok.injEq] at h
    obtain ⟨⟨h1, h2⟩, _⟩ := h
    subst h1; subst h2
    simp
  | cons item rest ih =>
    intro ps its sub ps2 hnd h
    simp only [processSaleItems] at h
    cases hf : findProduct ps item.product owner with
    | none => rw [hf] at h; simp at h
    | some p =>
      rw [hf] at h
      by_cases hst : p.stockQuantity < item.quantity
      · simp [hst] at h
      · simp only [hst, if_false] at h
        have hid : (saveProduct ps { p with stockQuantity := p.stockQuantity - item.quantity
            }).map Product.id = ps.map Product.id := saveProduct_map_id ps _
        have hnd1 : ((saveProduct ps { p with stockQuantity := p.stockQuantity - item.quantity
            }).map Product.id).Nodup := by rw [hid]; exact hnd
        have hkey : (saveProduct ps { p with stockQuantity := p.stockQuantity - item.quantity
            }).map prodKey = ps.map prodKey := saveProduct_map_key hnd hf _
        rcases hrec : processSaleItems owner
            (saveProduct ps { p with stockQuantity := p.stockQuantity - item.quantity }) rest
            with ⟨res, psr⟩
        rw [hrec] at h
        cases res with
        | error e => simp at h
        | ok v =>
          rcases v with ⟨its1, sub1⟩
          simp only [Prod.mk.injEq, Except.ok.injEq] at h
          obtain ⟨⟨hits, hsub⟩, hps2⟩ := h
          obtain ⟨ih1, ih2, ih3⟩ := ih _ its1 sub1 psr hnd1 hrec
          refine ⟨?_, ?_, ?_⟩
          · subst hits hsub
            simp [ih1]
          · subst hits
            simp [ih2]
          · subst hits
            intro pr hpr
            simp only [List.zip_cons_cons, List.mem_cons] at hpr
            rcases hpr with hpr | hpr
            · subst hpr
              refine ⟨rfl, rfl, rfl, p, hf, rfl, rfl⟩
            · obtain ⟨q1, q2, q3, pk, hpk, hprice, hpid⟩ := ih3 pr hpr
              refine ⟨q1, q2, q3, ?_⟩
              have hcon := findProduct_key_congr (saveProduct ps
                  { p with stockQuantity := p.stockQuantity - item.quantity }) ps
                  pr.2.product owner hkey
              rw [hpk] at hcon
              cases hfp : findProduct ps pr.2.product owner with
              | none => rw [hfp] at hcon; simp at hcon
              | some p0 =>
                rw [hfp] at hcon
                simp only [Option.map_some', Option.some.injEq, prodKey,
                  Prod.mk.injEq] at hcon
                exact ⟨p0, rfl, by rw [hprice, hcon.2.2], by rw [hpid, hcon.1]⟩

/-- When every line of the request resolves to a product in owner scope and
some line's quantity exceeds that product's stock, the sale item loop stops
with the insufficient-stock error (line quantities are nonnegative per the
route validator). -/
lemma processSaleItems_insufficient (owner : Nat) :
    ∀ (items : List ItemReq) (ps : List Product),
      (ps.map Product.id).Nodup →
      (∀ l ∈ items, 0 ≤ l.quantity) →
      (∀ l ∈ items, (findProduct ps l.product owner).isSome) →
      (∃ l ∈ items, ∃ p, findProduct ps l.product owner = some p ∧
        p.stockQuantity < l.quantity) →
      (processSaleItems owner ps items).1 = .error .insufficientStock := by
  intro items
  induction items with
  | nil =>
    intro ps _ _ _ hbad
    simp at hbad
  | cons item rest ih =>
    intro ps hnd hq hres hbad
    have hhead := hres item (by simp)
    cases hf : findProduct ps item.product owner with
    | none => rw [hf] at hhead; simp at hhead
    | some p =>
      simp only [processSaleItems, hf]
      by_cases hst : p.stockQuantity < item.quantity
      · simp [hst]
      · simp only [hst, if_false]
        obtain ⟨l0, hl0, p0, hp0, hlt⟩ := hbad
        rcases List.mem_cons.mp hl0 with rfl | hl0r
        · rw [hf] at hp0
          cases hp0
          exact absurd hlt hst
        · have hq0 : (0:Rat) ≤ item.quantity := hq item (by simp)
          have hid := saveProduct_map_id ps
            { p with stockQuantity := p.stockQuantity - item.quantity }
          have hnd1 : ((saveProduct ps
              { p with stockQuantity := p.stockQuantity - item.quantity
              }).map Product.id).Nodup := by rw [hid]; exact hnd
          have hsave := fun qid qo =>
            findProduct_saveProduct hnd hf (p.stockQuantity - item.quantity) qid qo
          have hres1 : ∀ l ∈ rest, (findProduct (saveProduct ps
              { p with stockQuantity := p.stockQuantity - item.quantity })
              l.product owner).isSome := by
            intro l hl
            rw [hsave l.product owner]
            have hsm := hres l (by simp [hl])
            cases hfl : findProduct ps l.product owner with
            | none => rw [hfl] at hsm; simp at hsm
            | some _ => simp
          have hbad1 : ∃ l ∈ rest, ∃ pb, findProduct (saveProduct ps
              { p with stockQuantity := p.stockQuantity - item.quantity })
              l.product owner = some pb ∧ pb.stockQuantity < l.quantity := by
            refine ⟨l0, hl0r, ?_⟩
            rw [hsave l0.product owner, hp0]
            by_cases hpp : p0.id = p.id
            · have hp0id := (findProduct_id_owner hp0).1
              have hpid := (findProduct_id_owner hf).1
              have heq : l0.product = item.product := by rw [← hp0id, hpp, hpid]
              rw [heq, hf] at hp0
              cases hp0
              refine ⟨{ p with stockQuantity := p.stockQuantity - item.quantity },
                by simp [hpp], ?_⟩
              simp only
              linarith
            · exact ⟨p0, by simp [hpp], hlt⟩
          have ihh := ih _ hnd1 (fun l hl => hq l (by simp [hl])) hres1 hbad1
          rcases hrec : processSaleItems owner (saveProduct ps
              { p with stockQuantity := p.stockQuantity - item.quantity }) rest
              with ⟨res, psr⟩
          rw [hrec] at ihh
          cases res with
          | ok v => simp at ihh
          | error e =>
            simp only [Except.error.injEq] at ihh
            subst ihh
            simp [hrec]

/-- The invoice item loop also only moves stock, never identifier, owner or
price. -/
lemma processInvoiceItems_key (owner : Nat) (itype : InvoiceType) :
    ∀ (items : List ItemReq) (ps : List Product),
      (ps.map Product.id).Nodup →
      (processInvoiceItems owner itype ps items).2.map prodKey = ps.map prodKey := by
  intro items
  induction items with
  | nil => intro ps _; rfl
  | cons item rest ih =>
    intro ps hnd
    simp only [processInvoiceItems]
    cases hf : findProduct ps item.product owner with
    | none => simp
    | some p =>
      simp only
      by_cases hst : itype = InvoiceType.sale ∧ p.stockQuantity < item.quantity
      · simp [hst]
      · simp only [hst, if_false]
        have hkey : (saveProduct ps { p with stockQuantity := invoiceStockDelta itype p.stockQuantity item.quantity }).map prodKey = ps.map prodKey := saveProduct_map_key hnd hf _
        have hid : (saveProduct ps { p with stockQuantity := invoiceStockDelta itype p.stockQuantity item.quantity }).map Product.id = ps.map Product.id := saveProduct_map_id ps _
        have hnd1 : ((saveProduct ps { p with stockQuantity := invoiceStockDelta itype p.stockQuantity item.quantity }).map Product.id).Nodup := by rw [hid]; exact hnd
        have ihh := ih _ hnd1
        rcases hrec : processInvoiceItems owner itype
            (saveProduct ps { p with stockQuantity := invoiceStockDelta itype p.stockQuantity item.quantity }) rest
            with ⟨res, ps2⟩
        rw [hrec] at ihh
        cases res with
        | ok v =>
          rcases v with ⟨its, sub⟩
          simpa [hrec] using ihh.trans hkey
        | error e => simpa [hrec] using ihh.trans hkey

/-- What a successful run of the invoice item loop guarantees, mirroring
processSaleItems_ok_spec. -/
lemma processInvoiceItems_ok_spec (owner : Nat) (itype : InvoiceType) :
    ∀ (items : List ItemReq) (ps : List Product) (its : List InvoiceItem) (sub : Rat)
      (ps2 : List Product),
      (ps.map Product.id).Nodup →
      processInvoiceItems owner itype ps items = (.ok (its, sub), ps2) →
      sub = (its.map InvoiceItem.totalPrice).sum ∧
      its.length = items.length ∧
      ∀ pr ∈ its.zip items,
        pr.1.quantity = pr.2.quantity ∧
        pr.1.discount = pr.2.discount.getD 0 ∧
        pr.1.totalPrice = pr.1.quantity * pr.1.unitPrice * (1 - pr.1.discount / 100) ∧
        ∃ p, findProduct ps pr.2.product owner = some p ∧
          pr.1.unitPrice = p.price ∧ pr.1.product = p.id := by
  intro items
  induction items with
  | nil =>
    intro ps its sub ps2 _ h
    simp only [processInvoiceItems, Prod.mk.injEq, Except.ok.injEq] at h
    obtain ⟨⟨h1, h2⟩, _⟩ := h
    subst h1; subst h2
    simp
  | cons item rest ih =>
    intro ps its sub ps2 hnd h
    simp only [processInvoiceItems] at h
    cases hf : findProduct ps item.product owner with
    | none => rw [hf] at h; simp at h
    | some p =>
      rw [hf] at h
      by_cases hst : itype = InvoiceType.sale ∧ p.stockQuantity < item.quantity
      · simp [hst] at h
      · simp only [hst, if_false] at h
        have hid : (saveProduct ps { p with stockQuantity := invoiceStockDelta itype p.stockQuantity item.quantity }).map Product.id = ps.map Product.id := saveProduct_map_id ps _
        have hnd1 : ((saveProduct ps { p with stockQuantity := invoiceStockDelta itype p.stockQuantity item.quantity }).map Product.id).Nodup := by rw [hid]; exact hnd
        have hkey : (saveProduct ps { p with stockQuantity := invoiceStockDelta itype p.stockQuantity item.quantity }).map prodKey = ps.map prodKey := saveProduct_map_key hnd hf _
        rcases hrec : processInvoiceItems owner itype
            (saveProduct ps { p with stockQuantity := invoiceStockDelta itype p.stockQuantity item.quantity }) rest
            with ⟨res, psr⟩
        rw [hrec] at h
        cases res with
        | error e => simp at h
        | ok v =>
          rcases v with ⟨its1, sub1⟩
          simp only [Prod.mk.injEq, Except.ok.injEq] at h
          obtain ⟨⟨hits, hsub⟩, hps2⟩ := h
          obtain ⟨ih1, ih2, ih3⟩ := ih _ its1 sub1 psr hnd1 hrec
          refine ⟨?_, ?_, ?_⟩
          · subst hits hsub
            simp [ih1]
          · subst hits
            simp [ih2]
          · subst hits
            intro pr hpr
            simp only [List.zip_cons_cons, List.mem_cons] at hpr
            rcases hpr with hpr | hpr
            · subst hpr
              refine ⟨rfl, rfl, rfl, p, hf, rfl, rfl⟩
            · obtain ⟨q1, q2, q3, pk, hpk, hprice, hpid⟩ := ih3 pr hpr
              refine ⟨q1, q2, q3, ?_⟩
              have hcon := findProduct_key_congr (saveProduct ps
                  { p with stockQuantity := invoiceStockDelta itype p.stockQuantity item.quantity }) ps
                  pr.2.product owner hkey
              rw [hpk] at hcon
              cases hfp : findProduct ps pr.2.product owner with
              | none => rw [hfp] at hcon; simp at hcon
              | some p0 =>
                rw [hfp] at hcon
                simp only [Option.map_some', Option.some.injEq, prodKey,
                  Prod.mk.injEq] at hcon
                exact ⟨p0, rfl, by rw [hprice, hcon.2.2], by rw [hpid, hcon.1]⟩

/-! ## Invariants of the cancellation stock-restoration loops -/

/-- Total quantity of the sale line items that reference a given product. -/
def qtyFor (pid : Nat) : List SaleItem → Rat
  | [] => 0
  | it :: rest => (if it.product = pid then it.quantity else 0) + qtyFor pid rest

/-- Signed total quantity of the invoice line items referencing a product:
positive for a sale-type invoice (stock comes back), negative for a
purchase-type one (stock goes back out). -/
def invQtyFor (itype : InvoiceType) (pid : Nat) : List InvoiceItem → Rat
  | [] => 0
  | it :: rest =>
    (if it.product = pid then
      (match itype with
       | .sale => it.quantity
       | .purchase => -it.quantity)
     else 0) + invQtyFor itype pid rest

/-- cancelSale's restoration loop adds, for every product that exists, the
total quantity of the cancelled sale's lines referencing it. -/
lemma restoreSaleStock_stock :
    ∀ (items : List SaleItem) (ps : List Product) (pid : Nat),
      (findProductById (restoreSaleStock ps items) pid).map Product.stockQuantity =
        (findProductById ps pid).map (fun p => p.stockQuantity + qtyFor pid items) := by
  intro items
  induction items with
  | nil =>
    intro ps pid
    simp only [restoreSaleStock, qtyFor]
    cases findProductById ps pid <;> simp
  | cons it rest ih =>
    intro ps pid
    simp only [restoreSaleStock]
    cases hf : findProductById ps it.product with
    | none =>
      rw [ih ps pid]
      by_cases hip : it.product = pid
      · subst hip
        rw [hf]
        simp
      · cases hfp : findProductById ps pid with
        | none => simp
        | some q => simp [qtyFor, hip]
    | some p =>
      rw [ih _ pid, findProductById_saveProduct]
      have hpid : p.id = it.product := findProductById_id hf
      by_cases hip : it.product = pid
      · subst hip
        rw [hf]
        simp only [Option.map_some', hpid, if_pos rfl, qtyFor, if_true, Option.some.injEq]
        ring
      · cases hfp : findProductById ps pid with
        | none => simp
        | some q =>
          have hqid : q.id = pid := findProductById_id hfp
          have hqp : ¬ q.id = p.id := by rw [hqid, hpid]; exact fun h => hip h.symm
          simp [hqp, qtyFor, hip]

/-- cancelInvoice's restoration loop applies the signed restoration quantity
to every product that exists. -/
lemma restoreInvoiceStock_stock (itype : InvoiceType) :
    ∀ (items : List InvoiceItem) (ps : List Product) (pid : Nat),
      (findProductById (restoreInvoiceStock itype ps items) pid).map Product.stockQuantity =
        (findProductById ps pid).map (fun p => p.stockQuantity + invQtyFor itype pid items) := by
  intro items
  induction items with
  | nil =>
    intro ps pid
    simp only [restoreInvoiceStock, invQtyFor]
    cases findProductById ps pid <;> simp
  | cons it rest ih =>
    intro ps pid
    simp only [restoreInvoiceStock]
    cases hf : findProductById ps it.product with
    | none =>
      rw [ih ps pid]
      by_cases hip : it.product = pid
      · subst hip
        rw [hf]
        simp
      · cases hfp : findProductById ps pid with
        | none => simp
        | some q => simp [invQtyFor, hip]
    | some p =>
      rw [ih _ pid, findProductById_saveProduct]
      have hpid : p.id = it.product := findProductById_id hf
      by_cases hip : it.product = pid
      · subst hip
        rw [hf]
        simp only [Option.map_some', hpid, if_pos rfl, invQtyFor]
        cases itype <;> simp <;> ring_nf
      · cases hfp : findProductById ps pid with
        | none => simp
        | some q =>
          have hqid : q.id = pid := findProductById_id hfp
          have hqp : ¬ q.id = p.id := by rw [hqid, hpid]; exact fun h => hip h.symm
          simp [hqp, invQtyFor, hip]

/-- Replacing the found sale by a copy with the same identifier and owner
commutes with lookup, provided sale identifiers are unique. -/
lemma findSale_saveSale {ss : List Sale} {sid owner : Nat} {s : Sale}
    (hnd : (ss.map Sale.id).Nodup) (hfind : findSale ss sid owner = some s)
    (s' : Sale) (hid : s'.id = s.id) (hown : s'.cafeOwner = s.cafeOwner) (qid qo : Nat) :
    findSale (saveSale ss s') qid qo =
      (findSale ss qid qo).map (fun x => if x.id = s'.id then s' else x) := by
  apply find?_map_pred
  intro a ha
  by_cases h : a.id = s'.id
  · have has : a = s := by
      apply List.inj_on_of_nodup_map hnd ha (List.mem_of_find?_eq_some hfind)
      rw [h, hid]
    subst has
    rw [if_pos h, hid, hown]
  · simp [h]

/-- Invoice analogue of findSale_saveSale. -/
lemma findInvoice_saveInvoice {is : List Invoice} {iid owner : Nat} {i : Invoice}
    (hnd : (is.map Invoice.id).Nodup) (hfind : findInvoice is iid owner = some i)
    (i' : Invoice) (hid : i'.id = i.id) (hown : i'.cafeOwner = i.cafeOwner) (qid qo : Nat) :
    findInvoice (saveInvoice is i') qid qo =
      (findInvoice is qid qo).map (fun x => if x.id = i'.id then i' else x) := by
  apply find?_map_pred
  intro a ha
  by_cases h : a.id = i'.id
  · have hai : a = i := by
      apply List.inj_on_of_nodup_map hnd ha (List.mem_of_find?_eq_some hfind)
      rw [h, hid]
    subst hai
    rw [if_pos h, hid, hown]
  · simp [h]

lemma findSale_id_owner {ss : List Sale} {sid owner : Nat} {s : Sale}
    (h : findSale ss sid owner = some s) : s.id = sid ∧ s.cafeOwner = owner := by
  have := List.find?_some h
  simpa [Bool.and_eq_true, beq_iff_eq] using this

lemma findInvoice_id_owner {is : List Invoice} {iid owner : Nat} {i : Invoice}
    (h : findInvoice is iid owner = some i) : i.id = iid ∧ i.cafeOwner = owner := by
  have := List.find?_some h
  simpa [Bool.and_eq_true, beq_iff_eq] using this

/-! ## Claim theorems -/

/-- C1.  The claim says every CashRegisterEntry the system creates (manual
transaction, Expense creation, Invoice creation with positive paidAmount,
Invoice additional payment) carries balance = prior balance plus/minus
amount, with base 0.  Evaluated at the failing input: the manual
createTransaction entry does carry the chained balance (here 100 + 50), but
createExpense constructs its cash-register document with no balance at all,
so the schema-required balance path is missing, the save is rejected, and
the persisted register is unchanged - the code never computes a balance in
the expense/invoice mirror flows. -/
theorem c1_mirror_entries_lack_balance :
    (createTransaction dbC1 txC1).1 =
      .ok { id := 2, transactionType := .deposit, paymentMethod := "cash", amount := 50,
            balance := some 150, description := "manual deposit", category := "other",
            reference := none, cafeOwner := 7 } ∧
    currentBalance dbC1 7 = 100 ∧
    (createExpense dbC1 expReqC1).1 = .error .validationFailed ∧
    (createExpense dbC1 expReqC1).2.cashRegister = dbC1.cashRegister ∧
    (expenseCashDoc expReqC1 2 3).balance = none ∧
    (expenseCashDoc expReqC1 2 3).balance ≠ some (currentBalance dbC1 7 - expReqC1.amount) := by
  refine ⟨?_, ?_, ?_, ?_, ?_, ?_⟩
  · norm_num [createTransaction, currentBalance, latestCashEntry, dbC1, txC1, priorEntryC1,
      saveCashRegister, cashRegisterSchemaValid, validPaymentMethod, validCategory,
      find?_cons_eval]
    rw [if_neg (by decide)]
  · norm_num [currentBalance, latestCashEntry, dbC1, priorEntryC1, find?_cons_eval]
  · norm_num [createExpense, expReqC1, dbC1, saveCashRegister, cashRegisterSchemaValid,
      expenseCashDoc]
  · norm_num [createExpense, expReqC1, dbC1, saveCashRegister, cashRegisterSchemaValid,
      expenseCashDoc]
  · norm_num [expenseCashDoc]
  · simp [expenseCashDoc]

/-- C2.  Evaluated at the failing input: createInvoice with paidAmount 10 on
a sale-type invoice constructs the single intended mirror document with
transactionType deposit, amount 10 and reference {invoice, id} - but the
document carries no balance and its reference type invoice is outside the
schema enum [sale, expense, other], so the save is rejected: the register
stays empty while the invoice itself is persisted, and the request errors.
With paidAmount 0/absent no document is attempted, and createSale never
touches the cash register at all (final general conjunct). -/
theorem c2_invoice_mirror_rejected :
    ((invoiceCashDoc invReqC2 2 3).transactionType = .deposit ∧
     (invoiceCashDoc invReqC2 2 3).amount = 10 ∧
     (invoiceCashDoc invReqC2 2 3).reference = some { type := "invoice", id := 2 } ∧
     (invoiceCashDoc invReqC2 2 3).balance = none ∧
     validRefType "invoice" = false ∧
     cashRegisterSchemaValid (invoiceCashDoc invReqC2 2 3) = false) ∧
    ((createInvoice dbC2 invReqC2).1 = .error .validationFailed ∧
     (createInvoice dbC2 invReqC2).2.cashRegister = [] ∧
     (createInvoice dbC2 invReqC2).2.invoices.length = 1) ∧
    ((createInvoice dbC2 invReqC2zero).1 ≠ Except.error ApiError.validationFailed ∧
     (createInvoice dbC2 invReqC2zero).2.cashRegister = []) ∧
    (∀ db r, ((createSale db r).2).cashRegister = db.cashRegister) := by
  refine ⟨?_, ?_, ?_, ?_⟩
  · refine ⟨?_, ?_, ?_, ?_, ?_, ?_⟩ <;>
      norm_num [invoiceCashDoc, invReqC2, cashRegisterSchemaValid, validRefType,
        validPaymentMethod, validCategory] <;> decide
  · norm_num [createInvoice, processInvoiceItems, dbC2, invReqC2, findProduct, saveProduct,
      invoiceCashDoc, saveCashRegister, cashRegisterSchemaValid, validRefType,
      validPaymentMethod, validCategory, derivePaymentStatus, invoiceStockDelta,
      find?_cons_eval]
  · refine ⟨?_, ?_⟩ <;>
      norm_num [createInvoice, processInvoiceItems, dbC2, invReqC2zero, findProduct,
        saveProduct, invoiceCashDoc, saveCashRegister, cashRegisterSchemaValid, validRefType,
        validPaymentMethod, validCategory, derivePaymentStatus, invoiceStockDelta,
        find?_cons_eval] <;> decide
  · intro db r
    rcases hp : processSaleItems r.owner db.products r.items with ⟨res, ps⟩
    cases res with
    | ok v =>
      rcases v with ⟨its, sub⟩
      simp [createSale, hp]
    | error e => simp [createSale, hp]

/-- C3.  Evaluated at the failing input: creating an Expense of amount 50
persists the expense and constructs the intended single withdrawal mirror
document referencing it, but the document has no balance, the schema rejects
the save, zero cash-register entries exist afterwards (the claim says
exactly one), and the request errors; deleting the expense then leaves both
collections empty. -/
theorem c3_expense_mirror_rejected :
    ((expenseCashDoc expReqC3 0 1).transactionType = .withdrawal ∧
     (expenseCashDoc expReqC3 0 1).amount = 50 ∧
     (expenseCashDoc expReqC3 0 1).reference = some { type := "expense", id := 0 } ∧
     (expenseCashDoc expReqC3 0 1).balance = none ∧
     cashRegisterSchemaValid (expenseCashDoc expReqC3 0 1) = false) ∧
    ((createExpense dbC3 expReqC3).1 = .error .validationFailed ∧
     (createExpense dbC3 expReqC3).2.expenses.length = 1 ∧
     (createExpense dbC3 expReqC3).2.cashRegister = []) ∧
    ((deleteExpense (createExpense dbC3 expReqC3).2 7 0).1 = .ok () ∧
     (deleteExpense (createExpense dbC3 expReqC3).2 7 0).2.expenses = [] ∧
     (deleteExpense (createExpense dbC3 expReqC3).2 7 0).2.cashRegister = []) := by
  refine ⟨by norm_num [expenseCashDoc, expReqC3, cashRegisterSchemaValid], ?_, ?_⟩ <;>
    norm_num [createExpense, deleteExpense, dbC3, expReqC3, expenseCashDoc,
      saveCashRegister, cashRegisterSchemaValid, find?_cons_eval, eraseP_cons_eval,
      refMatchesExpense]

/-- C4.  Evaluated at the section-8 scenario (paidAmount 10 to 25 on a
confirmed total-30 invoice): the InvalidState and InvalidAmount guards
behave as claimed (also for a lowered amount), and the invoice is updated to
paidAmount 25 / remainingAmount 5 / partial, but the mirror entry of amount
15 is constructed without balance and with reference type invoice, the
schema rejects it, the register stays empty and the request errors instead
of reporting success. -/
theorem c4_payment_update_mirror_rejected :
    (updateInvoicePayment dbC4 { payC4 with invoiceId := 2 }).1 = .error .invalidState ∧
    (updateInvoicePayment dbC4 { payC4 with paidAmount := 10 }).1 = .error .invalidAmount ∧
    (updateInvoicePayment dbC4 { payC4 with paidAmount := 5 }).1 = .error .invalidAmount ∧
    (updateInvoicePayment dbC4 payC4).1 = .error .validationFailed ∧
    findInvoice (updateInvoicePayment dbC4 payC4).2.invoices 1 7 = some invC4after ∧
    (updateInvoicePayment dbC4 payC4).2.cashRegister = [] ∧
    (paymentCashDoc invC4after 15 "cash" 3 7).amount = 15 ∧
    (paymentCashDoc invC4after 15 "cash" 3 7).balance = none ∧
    cashRegisterSchemaValid (paymentCashDoc invC4after 15 "cash" 3 7) = false := by
  refine ⟨?_, ?_, ?_, ?_, ?_, ?_, ?_, ?_, ?_⟩ <;>
    (norm_num [updateInvoicePayment, findInvoice, saveInvoice, dbC4, invC4, invC4after,
      payC4, paymentCashDoc, saveCashRegister, cashRegisterSchemaValid, find?_cons_eval,
      derivePaymentStatus]
     try decide)

/-- C5.  The payment-status ternary used by sale creation, invoice creation
and sale payment update satisfies, for any paidAmount at least 0: status
paid exactly when paidAmount covers the total (remaining at most 0), unpaid
exactly when nothing is paid against a positive total, and partial
otherwise; and the three operations indeed derive the stored paymentStatus
through this function from the stored total and paidAmount. -/
theorem c5_payment_status_rule :
    (∀ total paid : Rat, 0 ≤ paid →
      ((derivePaymentStatus (total - paid) paid = .paid ↔ total ≤ paid) ∧
       (derivePaymentStatus (total - paid) paid = .unpaid ↔ (paid = 0 ∧ 0 < total)) ∧
       ((¬ total ≤ paid ∧ ¬ (paid = 0 ∧ 0 < total)) →
         derivePaymentStatus (total - paid) paid = .part))) ∧
    (∀ db r s, (createSale db r).1 = .ok s →
      s.paymentStatus = derivePaymentStatus (s.total - s.paidAmount) s.paidAmount) ∧
    (∀ db r i, (createInvoice db r).1 = .ok i →
      i.paymentStatus = derivePaymentStatus (i.total - i.paidAmount) i.paidAmount) ∧
    (∀ db r s pa, r.paidAmount = some pa → (updateSale db r).1 = .ok s →
      s.paymentStatus = derivePaymentStatus (s.total - s.paidAmount) s.paidAmount) := by
  refine ⟨?_, ?_, ?_, ?_⟩
  · intro total paid hpaid
    unfold derivePaymentStatus
    refine ⟨?_, ?_, ?_⟩
    · constructor
      · intro h
        by_contra hc
        rw [if_neg (by intro hle; exact hc (by linarith))] at h
        split_ifs at h <;> simp_all
      · intro h
        rw [if_pos (by linarith)]
    · constructor
      · intro h
        by_cases h1 : total - paid ≤ 0
        · rw [if_pos h1] at h
          exact absurd h (by simp)
        · rw [if_neg h1] at h
          by_cases h2 : 0 < paid
          · rw [if_pos h2] at h
            exact absurd h (by simp)
          · rw [if_neg h2] at h
            refine ⟨le_antisymm (not_lt.mp h2) hpaid, ?_⟩
            have := not_le.mp h1
            linarith
      · rintro ⟨hp0, htot⟩
        subst hp0
        rw [if_neg (by simp only [sub_zero]; exact not_le.mpr htot), if_neg (by simp)]
    · rintro ⟨h1, h2⟩
      have hp0 : paid ≠ 0 := fun hp => h2 ⟨hp, by
        subst hp
        exact lt_of_not_le h1⟩
      rw [if_neg (by intro hle; exact h1 (by linarith)),
        if_pos (lt_of_le_of_ne hpaid (Ne.symm hp0))]
  · intro db r s h
    rcases hp : processSaleItems r.owner db.products r.items with ⟨res, ps⟩
    simp only [createSale, hp] at h
    cases res with
    | error e => simp at h
    | ok v =>
      rcases v with ⟨its, sub⟩
      simp only [Except.ok.injEq] at h
      subst h
      rfl
  · intro db r i h
    rcases hp : processInvoiceItems r.owner r.type db.products r.items with ⟨res, ps⟩
    simp only [createInvoice, hp] at h
    cases res with
    | error e => simp at h
    | ok v =>
      rcases v with ⟨its, sub⟩
      by_cases hpay : 0 < r.paidAmount.getD 0
      · simp [hpay, saveCashRegister, cashRegisterSchemaValid, invoiceCashDoc] at h
      · simp only [hpay, if_false, Except.ok.injEq] at h
        subst h
        rfl
  · intro db r s pa hpa h
    simp only [updateSale] at h
    cases hf : findSale db.sales r.saleId r.owner with
    | none => rw [hf] at h; simp at h
    | some sale =>
      rw [hf] at h
      simp only [hpa, Except.ok.injEq] at h
      subst h
      cases r.notes <;> rfl

/-- C6.  For every line-item list whose processing succeeds (products
resolve, stock suffices), a created sale - and, likewise, the invoice
document persisted by invoice creation - carries: each line total equal to
quantity times unit price times (1 - discount/100) with omitted discounts
defaulting to 0, the subtotal equal to the sum of the line totals, the
total equal to subtotal times (1 - order-discount/100) plus tax (defaults
0), remainingAmount equal to total minus paidAmount (default 0), and each
stored unitPrice a snapshot of the price of the product resolved in the
owner's scope at transaction time. -/
theorem c6_total_formulas :
    (∀ db r s, (db.products.map Product.id).Nodup → (createSale db r).1 = .ok s →
      s.subtotal = (s.items.map SaleItem.total).sum ∧
      s.total = s.subtotal * (1 - r.discount.getD 0 / 100) + r.tax.getD 0 ∧
      s.remainingAmount = s.total - r.paidAmount.getD 0 ∧
      s.paidAmount = r.paidAmount.getD 0 ∧
      s.items.length = r.items.length ∧
      ∀ pr ∈ s.items.zip r.items,
        pr.1.quantity = pr.2.quantity ∧
        pr.1.discount = pr.2.discount.getD 0 ∧
        pr.1.total = pr.1.quantity * pr.1.unitPrice * (1 - pr.1.discount / 100) ∧
        ∃ p, findProduct db.products pr.2.product r.owner = some p ∧
          pr.1.unitPrice = p.price) ∧
    (∀ db r i, (db.products.map Product.id).Nodup →
      (createInvoice db r).2.invoices = i :: db.invoices →
      i.subtotal = (i.items.map InvoiceItem.totalPrice).sum ∧
      i.total = i.subtotal * (1 - r.discount.getD 0 / 100) + r.tax.getD 0 ∧
      i.remainingAmount = i.total - r.paidAmount.getD 0 ∧
      i.paidAmount = r.paidAmount.getD 0 ∧
      i.items.length = r.items.length ∧
      ∀ pr ∈ i.items.zip r.items,
        pr.1.quantity = pr.2.quantity ∧
        pr.1.discount = pr.2.discount.getD 0 ∧
        pr.1.totalPrice = pr.1.quantity * pr.1.unitPrice * (1 - pr.1.discount / 100) ∧
        ∃ p, findProduct db.products pr.2.product r.owner = some p ∧
          pr.1.unitPrice = p.price) := by
  constructor
  · intro db r s hnd h
    rcases hp : processSaleItems r.owner db.products r.items with ⟨res, ps⟩
    simp only [createSale, hp] at h
    cases res with
    | error e => simp at h
    | ok v =>
      rcases v with ⟨its, sub⟩
      simp only [Except.ok.injEq] at h
      obtain ⟨h1, h2, h3⟩ := processSaleItems_ok_spec r.owner r.items db.products its sub ps
        hnd hp
      subst h
      refine ⟨h1, rfl, rfl, rfl, h2, ?_⟩
      intro pr hpr
      obtain ⟨q1, q2, q3, p, hpf, hpu, _⟩ := h3 pr hpr
      exact ⟨q1, q2, q3, p, hpf, hpu⟩
  · intro db r i hnd h
    rcases hp : processInvoiceItems r.owner r.type db.products r.items with ⟨res, ps⟩
    simp only [createInvoice, hp] at h
    cases res with
    | error e => simp at h
    | ok v =>
      rcases v with ⟨its, sub⟩
      obtain ⟨h1, h2, h3⟩ := processInvoiceItems_ok_spec r.owner r.type r.items db.products
        its sub ps hnd hp
      by_cases hpay : 0 < r.paidAmount.getD 0
      · have hval : ∀ dbx : DB, saveCashRegister dbx
            (invoiceCashDoc r db.nextId (db.nextId + 1)) = .error .validationFailed := by
          intro dbx
          simp [saveCashRegister, cashRegisterSchemaValid, invoiceCashDoc]
        simp only [hpay, if_true, hval, List.cons.injEq] at h
        obtain ⟨hi, _⟩ := h
        subst hi
        refine ⟨h1, rfl, rfl, rfl, h2, ?_⟩
        intro pr hpr
        obtain ⟨q1, q2, q3, p, hpf, hpu, _⟩ := h3 pr hpr
        exact ⟨q1, q2, q3, p, hpf, hpu⟩
      · simp only [hpay, if_false, List.cons.injEq] at h
        obtain ⟨hi, _⟩ := h
        subst hi
        refine ⟨h1, rfl, rfl, rfl, h2, ?_⟩
        intro pr hpr
        obtain ⟨q1, q2, q3, p, hpf, hpu, _⟩ := h3 pr hpr
        exact ⟨q1, q2, q3, p, hpf, hpu⟩

/-- C7 counterexample.  A sale-creation request whose second line references
an in-scope product with insufficient stock, but whose first line references
an absent product, returns NotFound - not InsufficientStock as the claim,
read literally, requires. -/
theorem c7_counterexample_not_found_first :
    (∃ l ∈ saleReqC7.items, ∃ p, findProduct dbC7.products l.product saleReqC7.owner = some p ∧
      p.stockQuantity < l.quantity) ∧
    (createSale dbC7 saleReqC7).1 = .error .notFound ∧
    (createSale dbC7 saleReqC7).1 ≠ .error .insufficientStock := by
  refine ⟨⟨{ product := 1, quantity := 1, discount := none }, by norm_num [saleReqC7], ?_⟩,
    ?_, ?_⟩
  · refine ⟨{ id := 1, cafeOwner := 7, name := "P1", price := 10, stockQuantity := 0 }, ?_, ?_⟩
    · norm_num [dbC7, saleReqC7, findProduct, find?_cons_eval]
    · norm_num
  · norm_num [createSale, processSaleItems, dbC7, saleReqC7, findProduct, find?_cons_eval]
  · norm_num [createSale, processSaleItems, dbC7, saleReqC7, findProduct, find?_cons_eval]
    decide

/-- C7 as amended: when additionally every line's product resolves in the
acting owner's scope, a sale-creation request containing a line whose
quantity exceeds its product's stock returns InsufficientStock and writes no
Sale document (and no cash-register entry); for a single-line request the
product collection - hence the product's stockQuantity - is also left
unchanged. -/
theorem c7_insufficient_stock_aborts (db : DB) (r : SaleReq)
    (hnd : (db.products.map Product.id).Nodup)
    (hq : ∀ l ∈ r.items, 0 ≤ l.quantity)
    (hres : ∀ l ∈ r.items, (findProduct db.products l.product r.owner).isSome)
    (hbad : ∃ l ∈ r.items, ∃ p, findProduct db.products l.product r.owner = some p ∧
      p.stockQuantity < l.quantity) :
    (createSale db r).1 = .error .insufficientStock ∧
    ((createSale db r).2).sales = db.sales ∧
    ((createSale db r).2).cashRegister = db.cashRegister ∧
    (r.items.length = 1 → (createSale db r).2 = db) := by
  have hloop := processSaleItems_insufficient r.owner r.items db.products hnd hq hres hbad
  rcases hp : processSaleItems r.owner db.products r.items with ⟨res, ps⟩
  rw [hp] at hloop
  cases res with
  | ok v => simp at hloop
  | error e =>
    simp only [Except.error.injEq] at hloop
    subst hloop
    refine ⟨?_, ?_, ?_, ?_⟩
    · simp [createSale, hp]
    · simp [createSale, hp]
    · simp [createSale, hp]
    · intro hlen
      obtain ⟨l0, hitems⟩ : ∃ l0, r.items = [l0] := by
        rcases hx : r.items with _ | ⟨a, _ | ⟨b, t⟩⟩ <;> simp [hx] at hlen ⊢
      obtain ⟨l, hl, p0, hp0, hlt⟩ := hbad
      rw [hitems] at hl
      simp only [List.mem_singleton] at hl
      subst hl
      have heval : processSaleItems r.owner db.products r.items =
          (.error .insufficientStock, db.products) := by
        rw [hitems]
        simp [processSaleItems, hp0, if_pos hlt]
      have hps : ps = db.products :=
        ((Prod.mk.injEq _ _ _ _).mp (hp.symm.trans heval)).2
      subst hps
      simp [createSale, hp]

/-- C8.  Cancelling a sale (invoice) fails with InvalidState unless the
record is in its non-cancelled confirmed state - spelled completed for a
Sale, confirmed for an Invoice - leaving the state untouched; on success the
record's status flips to cancelled while the record itself stays in its
collection, every existing product's stock moves opposite to the original
direction (plus the referencing quantities for a sale, signed by type for an
invoice), the cash register is untouched, and cancelling the same record a
second time returns InvalidState. -/
theorem c8_cancellation_round_trip :
    (∀ db owner sid s, (db.sales.map Sale.id).Nodup →
      findSale db.sales sid owner = some s →
      ((s.status ≠ .completed → cancelSale db owner sid = (.error .invalidState, db)) ∧
       (s.status = .completed →
         (cancelSale db owner sid).1 = .ok { s with status := SaleStatus.cancelled } ∧
         (cancelSale db owner sid).2.sales =
           saveSale db.sales { s with status := SaleStatus.cancelled } ∧
         findSale ((cancelSale db owner sid).2.sales) sid owner =
           some { s with status := SaleStatus.cancelled } ∧
         (cancelSale ((cancelSale db owner sid).2) owner sid).1 = .error .invalidState ∧
         (∀ pid, (findProductById ((cancelSale db owner sid).2.products) pid).map
             Product.stockQuantity =
           (findProductById db.products pid).map
             (fun p => p.stockQuantity + qtyFor pid s.items)) ∧
         (cancelSale db owner sid).2.cashRegister = db.cashRegister))) ∧
    (∀ db owner iid i, (db.invoices.map Invoice.id).Nodup →
      findInvoice db.invoices iid owner = some i →
      ((i.status ≠ .confirmed → cancelInvoice db owner iid = (.error .invalidState, db)) ∧
       (i.status = .confirmed →
         (cancelInvoice db owner iid).1 = .ok { i with status := InvoiceStatus.cancelled } ∧
         (cancelInvoice db owner iid).2.invoices =
           saveInvoice db.invoices { i with status := InvoiceStatus.cancelled } ∧
         findInvoice ((cancelInvoice db owner iid).2.invoices) iid owner =
           some { i with status := InvoiceStatus.cancelled } ∧
         (cancelInvoice ((cancelInvoice db owner iid).2) owner iid).1 = .error .invalidState ∧
         (∀ pid, (findProductById ((cancelInvoice db owner iid).2.products) pid).map
             Product.stockQuantity =
           (findProductById db.products pid).map
             (fun p => p.stockQuantity + invQtyFor i.type pid i.items)) ∧
         (cancelInvoice db owner iid).2.cashRegister = db.cashRegister))) := by
  constructor
  · intro db owner sid s hnd hfind
    constructor
    · intro hne
      simp only [cancelSale, hfind]
      rw [if_pos hne]
    · intro hcomp
      have hrun : cancelSale db owner sid =
          (.ok { s with status := SaleStatus.cancelled },
           { db with products := restoreSaleStock db.products s.items,
                     sales := saveSale db.sales { s with status := SaleStatus.cancelled } }) := by
        simp only [cancelSale, hfind]
        rw [if_neg (by simp [hcomp])]
      have hfind2 : findSale (saveSale db.sales { s with status := SaleStatus.cancelled })
          sid owner = some { s with status := SaleStatus.cancelled } := by
        rw [findSale_saveSale hnd hfind { s with status := SaleStatus.cancelled } rfl rfl,
          hfind]
        simp
      refine ⟨?_, ?_, ?_, ?_, ?_, ?_⟩
      · rw [hrun]
      · rw [hrun]
      · rw [hrun]
        exact hfind2
      · rw [hrun]
        simp only [cancelSale, hfind2]
        rw [if_pos (by simp)]
      · intro pid
        rw [hrun]
        exact restoreSaleStock_stock s.items db.products pid
      · rw [hrun]
  · intro db owner iid i hnd hfind
    constructor
    · intro hne
      simp only [cancelInvoice, hfind]
      rw [if_pos hne]
    · intro hconf
      have hrun : cancelInvoice db owner iid =
          (.ok { i with status := InvoiceStatus.cancelled },
           { db with products := restoreInvoiceStock i.type db.products i.items,
                     invoices := saveInvoice db.invoices
                       { i with status := InvoiceStatus.cancelled } }) := by
        simp only [cancelInvoice, hfind]
        rw [if_neg (by simp [hconf])]
      have hfind2 : findInvoice (saveInvoice db.invoices
          { i with status := InvoiceStatus.cancelled }) iid owner =
          some { i with status := InvoiceStatus.cancelled } := by
        rw [findInvoice_saveInvoice hnd hfind { i with status := InvoiceStatus.cancelled }
          rfl rfl, hfind]
        simp
      refine ⟨?_, ?_, ?_, ?_, ?_, ?_⟩
      · rw [hrun]
      · rw [hrun]
      · rw [hrun]
        exact hfind2
      · rw [hrun]
        simp only [cancelInvoice, hfind2]
        rw [if_pos (by simp)]
      · intro pid
        rw [hrun]
        exact restoreInvoiceStock_stock i.type i.items db.products pid
      · rw [hrun]

/-- C9.  A direct withdrawal whose amount exceeds the current running
balance is rejected with InsufficientFunds and the state is completely
unchanged; the expense flow contains no balance check at all: it never
reports InsufficientFunds, its outcome is independent of the cash-register
contents (hence of the running balance), and the expense document itself is
persisted no matter what the balance is. -/
theorem c9_withdrawal_guard_asymmetry :
    (∀ db r, r.transactionType = TxType.withdrawal →
      currentBalance db r.owner < r.amount →
      createTransaction db r = (.error .insufficientFunds, db)) ∧
    (∀ db r, (createExpense db r).1 ≠ .error .insufficientFunds) ∧
    (∀ db r entries,
      (createExpense { db with cashRegister := entries } r).1 = (createExpense db r).1) ∧
    (∀ db r, (createExpense db r).2.expenses =
      { id := db.nextId, description := r.description, amount := r.amount,
        category := r.category, paymentMethod := r.paymentMethod,
        cafeOwner := r.owner } :: db.expenses) := by
  have hrun : ∀ (db : DB) (r : ExpenseReq), createExpense db r =
      (.error .validationFailed,
       { db with
           expenses := { id := db.nextId, description := r.description, amount := r.amount, category := r.category, paymentMethod := r.paymentMethod, cafeOwner := r.owner } :: db.expenses,
           nextId := db.nextId + 1 + 1 }) := by
    intro db r
    simp [createExpense, saveCashRegister, cashRegisterSchemaValid, expenseCashDoc]
  refine ⟨?_, ?_, ?_, ?_⟩
  · intro db r htype hbal
    obtain ⟨o, tt, pm, am, de, ca, re⟩ := r
    dsimp only at htype hbal ⊢
    subst htype
    simp only [createTransaction]
    rw [if_pos ⟨trivial, sub_neg.mpr hbal⟩]
  · intro db r
    rw [hrun]
    simp
  · intro db r entries
    rw [hrun, hrun]
  · intro db r
    rw [hrun]

/-- C10.  The sale payment update applies any supplied paidAmount - with no
monotonicity and no upper bound, so remainingAmount may go negative -
unconditionally: paidAmount, remainingAmount and paymentStatus are
recomputed, notes is overwritten only when supplied, every other field of
the sale is untouched, the sale is saved back in place, and no other
collection (in particular the cash register) changes. -/
theorem c10_update_sale_unconditional (db : DB) (r : UpdateSaleReq) (s : Sale) (pa : Rat)
    (hfind : findSale db.sales r.saleId r.owner = some s)
    (hpa : r.paidAmount = some pa) (hpos : 0 ≤ pa) :
    (let saleAfter : Sale := { s with paidAmount := pa, remainingAmount := s.total - pa, paymentStatus := derivePaymentStatus (s.total - pa) pa, notes := r.notes.or s.notes }
     updateSale db r = (.ok saleAfter, { db with sales := saveSale db.sales saleAfter })) := by
  cases hn : r.notes <;>
    simp [updateSale, hfind, hpa, hn, Option.or]

/-! ## Witnesses -/

/-- Witness for C5 at total 30: paid 10 gives partial, paid 30 gives paid,
paid 0 gives unpaid. -/
theorem c5_payment_status_rule_witness :
    derivePaymentStatus ((30:Rat) - 10) 10 = PayStatus.part ∧
    derivePaymentStatus ((30:Rat) - 30) 30 = PayStatus.paid ∧
    derivePaymentStatus ((30:Rat) - 0) 0 = PayStatus.unpaid := by
  refine ⟨(c5_payment_status_rule.1 30 10 (by norm_num)).2.2 ⟨by norm_num, by norm_num⟩,
    (c5_payment_status_rule.1 30 30 (by norm_num)).1.mpr (by norm_num),
    (c5_payment_status_rule.1 30 0 (by norm_num)).2.1.mpr ⟨rfl, by norm_num⟩⟩

/-- Witness for C6 on a concrete two-unit sale and a three-unit purchase
invoice of a price-10 product. -/
theorem c6_total_formulas_witness :
    (saleC6.subtotal = (saleC6.items.map SaleItem.total).sum ∧
     saleC6.total = saleC6.subtotal * (1 - saleReqC6.discount.getD 0 / 100)
       + saleReqC6.tax.getD 0) ∧
    (invC6.subtotal = (invC6.items.map InvoiceItem.totalPrice).sum ∧
     invC6.total = invC6.subtotal * (1 - invReqC6.discount.getD 0 / 100)
       + invReqC6.tax.getD 0) := by
  have hsale : (createSale dbC6 saleReqC6).1 = .ok saleC6 := by
    norm_num [createSale, processSaleItems, dbC6, saleReqC6, saleC6, findProduct,
      saveProduct, find?_cons_eval, derivePaymentStatus]
  have hinv : (createInvoice dbC6 invReqC6).2.invoices = invC6 :: dbC6.invoices := by
    norm_num [createInvoice, processInvoiceItems, dbC6, invReqC6, invC6, findProduct,
      saveProduct, find?_cons_eval, derivePaymentStatus, invoiceStockDelta]
  have h1 := c6_total_formulas.1 dbC6 saleReqC6 saleC6 (by decide) hsale
  have h2 := c6_total_formulas.2 dbC6 invReqC6 invC6 (by decide) hinv
  exact ⟨⟨h1.1, h1.2.1⟩, ⟨h2.1, h2.2.1⟩⟩

/-- Witness for the amended C7 on a single-line request exceeding stock:
InsufficientStock is returned and the state - the product included - is
fully unchanged. -/
theorem c7_insufficient_stock_aborts_witness :
    (createSale dbC7 saleReqC7single).1 = .error .insufficientStock ∧
    (createSale dbC7 saleReqC7single).2 = dbC7 := by
  have h := c7_insufficient_stock_aborts dbC7 saleReqC7single (by decide) (by decide)
    (by decide)
    ⟨{ product := 1, quantity := 1, discount := none }, by decide,
     { id := 1, cafeOwner := 7, name := "P1", price := 10, stockQuantity := 0 },
     by decide, by decide⟩
  exact ⟨h.1, h.2.2.2 (by decide)⟩

/-- Witness for C8: cancelling the completed sale and the confirmed purchase
invoice of the fixture succeeds once and is rejected the second time. -/
theorem c8_cancellation_round_trip_witness :
    (cancelSale dbC8 7 1).1 = .ok { saleC8 with status := SaleStatus.cancelled } ∧
    (cancelSale ((cancelSale dbC8 7 1).2) 7 1).1 = .error .invalidState ∧
    (cancelInvoice dbC8 7 1).1 = .ok { invC8 with status := InvoiceStatus.cancelled } ∧
    (cancelInvoice ((cancelInvoice dbC8 7 1).2) 7 1).1 = .error .invalidState := by
  have hs := (c8_cancellation_round_trip.1 dbC8 7 1 saleC8 (by decide) (by decide)).2 rfl
  have hi := (c8_cancellation_round_trip.2 dbC8 7 1 invC8 (by decide) (by decide)).2 rfl
  exact ⟨hs.1, hs.2.2.2.1, hi.1, hi.2.2.2.1⟩

/-- Witness for C9: a manual withdrawal of 50 against an empty register is
rejected with InsufficientFunds, while the expense flow for the same owner
and amount never reports InsufficientFunds. -/
theorem c9_withdrawal_guard_asymmetry_witness :
    createTransaction dbC9 txC9 = (.error .insufficientFunds, dbC9) ∧
    (createExpense dbC9 expReqC9).1 ≠ .error .insufficientFunds := by
  refine ⟨c9_withdrawal_guard_asymmetry.1 dbC9 txC9 rfl ?_,
    c9_withdrawal_guard_asymmetry.2.1 dbC9 expReqC9⟩
  norm_num [currentBalance, latestCashEntry, dbC9, txC9]

/-- Witness for C10: raising paidAmount from 20 to 50 on a total-30 sale is
accepted, drives remainingAmount to -20, flips the status to paid and keeps
the register untouched. -/
theorem c10_update_sale_unconditional_witness :
    updateSale dbC10 updReqC10 =
      (.ok { saleC10 with paidAmount := 50, remainingAmount := saleC10.total - 50, paymentStatus := derivePaymentStatus (saleC10.total - 50) 50, notes := updReqC10.notes.or saleC10.notes },
       { dbC10 with sales := saveSale dbC10.sales { saleC10 with paidAmount := 50, remainingAmount := saleC10.total - 50, paymentStatus := derivePaymentStatus (saleC10.total - 50) 50, notes := updReqC10.notes.or saleC10.notes } }) := by
  exact c10_update_sale_unconditional dbC10 updReqC10 saleC10 50 (by decide) (by decide)
    (by norm_num)

end HesabNet
